import Mathlib

/- A shallow embedding of the navigation and caching core of xdsc
   (src/xdsc.py): the DiscussWrapper connection and meeting caches, the
   cursor tracker, the transaction navigator, and the lazy window loader
   plus bulk meeting scan of the Xdsc class.  The discuss library (remote
   gateway and RC file) is an external collaborator; its operations are
   modelled as explicit data (Remote, RCFile) following the interfaces the
   source uses and the specification of the Registry. -/

/-- Error outcomes of the Python exception classes the source
    distinguishes: discuss.DiscussError carrying a protocol code,
    discuss.rpc.ProtocolError, socket.timeout, other socket errors, the
    builtin ValueError, KeyError, IndexError and TypeError, the registry
    duplicate-add misuse, and AttributeError (a method looked up on an
    object that does not have it). -/
inductive DsError where
  | discussError (code : Nat)
  | protocolError
  | socketTimeout
  | socketError
  | valueError
  | keyError
  | indexError
  | typeError
  | duplicateError
  | attributeError (method : String)
deriving Repr, DecidableEq

/-- Modelled from the spec: the discuss protocol code for a deleted
    transaction (discuss.constants.DELETED_TRN, external to src); only the
    distinctness of the three codes matters here. -/
def DELETED_TRN : Nat := 1

/-- Modelled from the spec: the discuss protocol code for a transaction
    number that never existed (discuss.constants.NO_SUCH_TRN). -/
def NO_SUCH_TRN : Nat := 2

/-- Modelled from the spec: the discuss protocol code for a meeting that
    does not exist on the server (discuss.constants.NO_SUCH_MTG). -/
def NO_SUCH_MTG : Nat := 3

/-- One post of a meeting: its own sequence number, the adjacent live
    sequence numbers (0 = none), the reply-chain links, and the first/last
    numbers of its chain.  Presentation-only fields of the source (author,
    subject, signature, date_entered, flags, num_lines, the lazily fetched
    text) are omitted: no claim concerns them. -/
structure Transaction where
  current : Int
  prev : Int
  next : Int
  pref : Int
  nref : Int
  fref : Int
  lref : Int
deriving Repr, DecidableEq

/-- A meeting's identity key: (host, path), as the tuples the source uses
    to key the RC file and the meeting cache. -/
abbrev Location := String × String

/-- One record of the persisted meeting list (the entries of
    discuss.RCFile): display names (most canonical first), the last read
    transaction number, and the soft-deletion flag. -/
structure Entry where
  names : List String
  last_transaction : Int
  deleted : Bool
deriving Repr, DecidableEq

/-- The persisted meeting registry (discuss.RCFile): a mapping from
    location to entry, modelled as an association list. -/
structure RCFile where
  entries : List (Location × Entry)
deriving Repr, DecidableEq

/-- First value bound to a key in an association list (Python dict
    lookup). -/
def lookupAssoc {α β : Type} [DecidableEq α] : List (α × β) → α → Option β
  | [], _ => none
  | p :: rest, k => if p.1 = k then some p.2 else lookupAssoc rest k

/-- Modelled from the spec: Registry lookup resolves a display or short
    name to a MeetingLocation, returning none when no entry matches
    (discuss.RCFile.lookup, external to src). -/
def RCFile.lookup (rc : RCFile) (name : String) : Option Location :=
  (rc.entries.find? (fun p => p.2.names.contains name)).map (fun p => p.1)

/-- Indexing the registry mapping by location (Python
    rcfile.entries[loc]). -/
def RCFile.getEntry (rc : RCFile) (loc : Location) : Option Entry :=
  lookupAssoc rc.entries loc

/-- Modelled from the spec: Registry touch sets last_transaction of the
    entry at the given location unconditionally
    (discuss.RCFile.touch, external to src). -/
def RCFile.touch (rc : RCFile) (loc : Location) (n : Int) : RCFile :=
  RCFile.mk (rc.entries.map (fun p =>
    if p.1 = loc then (p.1, { p.2 with last_transaction := n }) else p))

/-- Modelled from the spec: Registry add fails with DuplicateError when the
    location is already present, and otherwise inserts a fresh entry with
    last_transaction 0 and deleted false (discuss.RCFile.add, external to
    src). -/
def RCFile.add (rc : RCFile) (loc : Location) (names : List String) :
    Except DsError RCFile :=
  match lookupAssoc rc.entries loc with
  | some _ => .error .duplicateError
  | none => .ok (RCFile.mk (rc.entries ++
      [(loc, { names := names, last_transaction := 0, deleted := false })]))

/-- Setting the deleted flag of the entry at a location (the in-place
    Python mutation meetings[m]['deleted'] = True). -/
def RCFile.setDeleted (rc : RCFile) (loc : Location) : RCFile :=
  RCFile.mk (rc.entries.map (fun p =>
    if p.1 = loc then (p.1, { p.2 with deleted := true }) else p))

/-- Replacing the first display name of the entry at a location (the
    in-place Python mutation meetings[m]['names'][0] = long_name). -/
def RCFile.setFirstName (rc : RCFile) (loc : Location) (nm : String) : RCFile :=
  RCFile.mk (rc.entries.map (fun p =>
    if p.1 = loc then (p.1, { p.2 with names := nm :: p.2.names.tail }) else p))

/-- Live meeting metadata (discuss.Meeting after load_info): the full
    numeric range lowest..highest, the live range first..last, and the
    remote fetch of a single transaction by number, which raises
    DiscussError codes for deleted or nonexistent slots. -/
structure Meeting where
  id : Location
  long_name : String
  short_name : String
  access_modes : String
  lowest : Int
  highest : Int
  first : Int
  last : Int
  fetch : Int → Except DsError Transaction

/-- The metadata record discuss.Meeting.load_info fills in. -/
structure MeetingInfo where
  long_name : String
  short_name : String
  access_modes : String
  lowest : Int
  highest : Int
  first : Int
  last : Int
deriving Repr, DecidableEq

/-- A protocol handle (discuss.Client).  The id field stands for Python
    object identity: every constructor call yields a fresh id, so two
    handles built by separate calls are distinguishable. -/
structure Client where
  id : Nat
  host : String
  timeout : Option Int
deriving Repr, DecidableEq

/-- Modelled from the spec: the remote gateway behind the discuss library.
    connect is the connection attempt discuss.Client performs (none =
    success), checkUpdate is Meeting.check_update, loadInfo is
    Meeting.load_info, fetch is Meeting.get_transaction. -/
structure Remote where
  connect : String → Option DsError
  checkUpdate : Location → Int → Except DsError Bool
  loadInfo : Location → Except DsError MeetingInfo
  fetch : Location → Int → Except DsError Transaction

/-- The DiscussWrapper state: the per-location meeting cache, the per-host
    connection cache, the default timeout, the RC file, the external remote
    world, and the counter that stamps object identities onto newly
    constructed Clients. -/
structure DiscussWrapper where
  meetingcache : List (Location × Meeting)
  connectioncache : List (String × Client)
  timeout : Int
  rcfile : RCFile
  remote : Remote
  nextClientId : Nat

/-- DiscussWrapper._get_connection: return the memoized handle for the
    host; on a cache miss construct and connect a fresh Client with the
    wrapper's timeout (which may fail, caching nothing) and memoize it. -/
def _get_connection (w : DiscussWrapper) (host : String) :
    Except DsError Client × DiscussWrapper :=
  match lookupAssoc w.connectioncache host with
  | some conn => (.ok conn, w)
  | none =>
    match w.remote.connect host with
    | some e => (.error e, w)
    | none =>
      let conn : Client := { id := w.nextClientId, host := host, timeout := some w.timeout }
      (.ok conn, { w with nextClientId := w.nextClientId + 1,
                          connectioncache := (host, conn) :: w.connectioncache })

/-- The Meeting object as populated by load_info, fetching transactions
    through the remote gateway for its location. -/
def mkMeeting (rem : Remote) (loc : Location) (info : MeetingInfo) : Meeting :=
  { id := loc, long_name := info.long_name, short_name := info.short_name,
    access_modes := info.access_modes, lowest := info.lowest,
    highest := info.highest, first := info.first, last := info.last,
    fetch := rem.fetch loc }

/-- The tail of DiscussWrapper.get_meeting after the probe was accepted:
    mtg.load_info(), cache by location, return the cached object. -/
def load_and_cache (w1 : DiscussWrapper) (loc : Location) :
    Except DsError Meeting × DiscussWrapper :=
  match w1.remote.loadInfo loc with
  | .error e => (.error e, w1)
  | .ok info =>
    let mtg := mkMeeting w1.remote loc info
    (.ok mtg, { w1 with meetingcache := (loc, mtg) :: w1.meetingcache })

/-- DiscussWrapper.get_meeting for an already resolved location: return the
    cached Meeting if present; otherwise obtain the host's connection,
    probe with mtg.check_update(0), swallow exactly a DiscussError whose
    code is NO_SUCH_TRN (transaction 0 is typically pre-deleted), re-raise
    any other DiscussError, let any non-DiscussError failure propagate,
    then load the metadata and cache the meeting by location. -/
def get_meetingAt (w : DiscussWrapper) (loc : Location) :
    Except DsError Meeting × DiscussWrapper :=
  match lookupAssoc w.meetingcache loc with
  | some mtg => (.ok mtg, w)
  | none =>
    match _get_connection w loc.1 with
    | (.error e, w1) => (.error e, w1)
    | (.ok _conn, w1) =>
      match w1.remote.checkUpdate loc 0 with
      | .error (.discussError c) =>
        if c = NO_SUCH_TRN then load_and_cache w1 loc
        else (.error (.discussError c), w1)
      | .error e => (.error e, w1)
      | .ok _ => load_and_cache w1 loc

/-- DiscussWrapper.get_meeting: resolve the name through the RC file, then
    proceed at the location.  An unresolvable name leaves location = None
    and the subscript location[0] raises TypeError. -/
def get_meeting (w : DiscussWrapper) (name : String) :
    Except DsError Meeting × DiscussWrapper :=
  match w.rcfile.lookup name with
  | none => (.error .typeError, w)
  | some loc => get_meetingAt w loc

/-- DiscussWrapper.add_meeting: construct a fresh discuss.Client for the
    host directly (not through the connection cache and with the default
    timeout), build a Meeting on it, and register it in the RC file.  The
    names the registry stores for the new meeting are modelled from the
    spec as the meeting's long and short names, obtained through the
    gateway; RCFile.save's file I/O is outside the model. -/
def add_meeting (w : DiscussWrapper) (host path : String) :
    Except DsError DiscussWrapper :=
  match w.remote.connect host with
  | some e => .error e
  | none =>
    let _cli : Client := { id := w.nextClientId, host := host, timeout := none }
    let w1 := { w with nextClientId := w.nextClientId + 1 }
    match w1.remote.loadInfo (host, path) with
    | .error e => .error e
    | .ok info =>
      match w1.rcfile.add (host, path) [info.long_name, info.short_name] with
      | .error e => .error e
      | .ok rc2 => .ok { w1 with rcfile := rc2 }

/-- DiscussWrapper._last_read_transaction: look the meeting's long name up
    in the RC file and read that entry's last_transaction.  A failed lookup
    (None) or a missing entry raises KeyError. -/
def _last_read_transaction (rc : RCFile) (mtg : Meeting) : Except DsError Int :=
  match rc.lookup mtg.long_name with
  | none => .error .keyError
  | some loc =>
    match rc.getEntry loc with
    | none => .error .keyError
    | some e => .ok e.last_transaction

/-- DiscussWrapper.touch_meeting: record the viewed transaction's number as
    the meeting's last read transaction, keyed by the meeting's id. -/
def touch_meeting (rc : RCFile) (mtg : Meeting) (trn : Transaction) : RCFile :=
  rc.touch mtg.id trn.current

/-- DiscussWrapper.get_transaction: raise ValueError when the number is
    outside lowest..highest, otherwise fetch the transaction through the
    Meeting and, when updateLast is set, touch the RC file with it. -/
def get_transaction (rc : RCFile) (mtg : Meeting) (trn_num : Int)
    (updateLast : Bool) : Except DsError (Transaction × RCFile) :=
  if trn_num < mtg.lowest ∨ mtg.highest < trn_num then .error .valueError
  else
    match mtg.fetch trn_num with
    | .error e => .error e
    | .ok trn => .ok (trn, if updateLast then touch_meeting rc mtg trn else rc)

/-- The loop body of DiscussWrapper.find_next_valid_transaction: probe the
    sequence numbers t, t+inc, t+2*inc, ... for the given number of steps,
    returning the first transaction get_transaction yields, skipping a
    DiscussError whose code is DELETED_TRN or NO_SUCH_TRN, re-raising any
    other error, and yielding none when the steps are exhausted (the Python
    for loop falling through returns None). -/
def walkFrom (rc : RCFile) (mtg : Meeting) (inc : Int) :
    Int → Nat → Except DsError (Option Transaction × RCFile)
  | _, 0 => .ok (none, rc)
  | t, n + 1 =>
    match get_transaction rc mtg t true with
    | .ok (trn, rc2) => .ok (some trn, rc2)
    | .error (.discussError c) =>
      if c = DELETED_TRN ∨ c = NO_SUCH_TRN then walkFrom rc mtg inc (t + inc) n
      else .error (.discussError c)
    | .error e => .error e

/-- DiscussWrapper.find_next_valid_transaction: read the stored cursor;
    when it already sits at or beyond the boundary for the walk direction
    the source calls self.go_to_transaction(...), a method DiscussWrapper
    does not define, so the call raises AttributeError; otherwise walk one
    step past the cursor toward the boundary (the xrange bound end +
    increment), skipping deleted and nonexistent numbers. -/
def find_next_valid_transaction (rc : RCFile) (mtg : Meeting)
    (backwards : Bool) : Except DsError (Option Transaction × RCFile) :=
  match _last_read_transaction rc mtg with
  | .error e => .error e
  | .ok start_from =>
    if backwards = false ∧ mtg.last ≤ start_from then
      .error (.attributeError "go_to_transaction")
    else if backwards = true ∧ start_from ≤ mtg.first then
      .error (.attributeError "go_to_transaction")
    else
      let increment : Int := if backwards then -1 else 1
      walkFrom rc mtg increment (start_from + increment)
        (if backwards then (start_from - mtg.first).toNat
         else (mtg.last - start_from).toNat)

/-- Whether a fetch outcome is one of the two skip signals
    find_next_valid_transaction steps over. -/
def isSkipErr : Except DsError Transaction → Bool
  | .error (.discussError c) => c == DELETED_TRN || c == NO_SUCH_TRN
  | _ => false

/-- Placeholder transaction used only as the default of List.getD in
    statements about the window loader. -/
def defaultTrn : Transaction :=
  { current := 0, prev := 0, next := 0, pref := 0, nref := 0, fref := 0, lref := 0 }

/-- The loop of Xdsc.load_more_transactions: up to num times, stop if the
    oldest transaction's prev pointer is 0 (start of the meeting), else
    fetch that prev transaction through the Meeting and prepend it to the
    window. -/
def loadMoreAux (fetch : Int → Except DsError Transaction)
    (trn : Transaction) (win : List Transaction) :
    Nat → Except DsError (List Transaction)
  | 0 => .ok win
  | n + 1 =>
    if trn.prev = 0 then .ok win
    else
      match fetch trn.prev with
      | .error e => .error e
      | .ok t2 => loadMoreAux fetch t2 (t2 :: win) n

/-- Xdsc.load_more_transactions: extend the window of transactions (oldest
    first, as rows of the transaction list store) backward by up to num
    entries, following prev pointers from the current oldest row.  On an
    empty window the source's get_iter_first yields None and the get_value
    call on it raises TypeError. -/
def load_more_transactions (mtg : Meeting) (win : List Transaction)
    (num : Nat) : Except DsError (List Transaction) :=
  match win with
  | [] => .error .typeError
  | trn :: rest => loadMoreAux mtg.fetch trn (trn :: rest) num

/-- The user-visible dialogs Xdsc.check_meetings raises while scanning:
    a meeting unreachable within the timeout, or gone from the server. -/
inductive Report where
  | unreachable (loc : Location)
  | noSuchMeeting (loc : Location)
deriving Repr, DecidableEq

/-- The in-place quarantine mutation of Xdsc.check_meetings:
    meetings[m]['deleted'] = True. -/
def markDeleted (w : DiscussWrapper) (loc : Location) : DiscussWrapper :=
  { w with rcfile := w.rcfile.setDeleted loc }

/-- The in-place long-name repair of Xdsc.check_meetings:
    meetings[m]['names'][0] = mtg.long_name. -/
def setFirstNameW (w : DiscussWrapper) (loc : Location) (nm : String) :
    DiscussWrapper :=
  { w with rcfile := w.rcfile.setFirstName loc nm }

/-- The loop of Xdsc.check_meetings over the registry keys: skip entries
    already flagged deleted; attend each remaining meeting; on
    socket.timeout report and quarantine it; on a DiscussError quarantine
    and report only when the code is NO_SUCH_MTG, otherwise just move on;
    on a ProtocolError move on; any other exception is uncaught and aborts
    the loop (returned as the final component, with the mutations made so
    far kept).  The Bool is the update flag that decides the final
    rcfile.save; the save itself is file I/O outside the model. -/
def checkMeetingsAux (w : DiscussWrapper) (reports : List Report)
    (upd : Bool) : List Location →
    DiscussWrapper × List Report × Bool × Option DsError
  | [] => (w, reports, upd, none)
  | loc :: rest =>
    match RCFile.getEntry w.rcfile loc with
    | none => (w, reports, upd, some .keyError)
    | some ent =>
      if ent.deleted then checkMeetingsAux w reports upd rest
      else
        match get_meetingAt w loc with
        | (.error .socketTimeout, w1) =>
          checkMeetingsAux (markDeleted w1 loc)
            (reports ++ [.unreachable loc]) true rest
        | (.error (.discussError c), w1) =>
          if c = NO_SUCH_MTG then
            checkMeetingsAux (markDeleted w1 loc)
              (reports ++ [.noSuchMeeting loc]) true rest
          else checkMeetingsAux w1 reports upd rest
        | (.error .protocolError, w1) => checkMeetingsAux w1 reports upd rest
        | (.error e, w1) => (w1, reports, upd, some e)
        | (.ok mtg, w1) =>
          match RCFile.getEntry w1.rcfile loc with
          | none => (w1, reports, upd, some .keyError)
          | some ent1 =>
            match ent1.names with
            | [] => (w1, reports, upd, some .indexError)
            | n0 :: _ =>
              if mtg.long_name ≠ n0 then
                checkMeetingsAux (setFirstNameW w1 loc mtg.long_name)
                  reports true rest
              else checkMeetingsAux w1 reports upd rest

/-- Xdsc.check_meetings: run the scan over every key of the registry. -/
def check_meetings (w : DiscussWrapper) :
    DiscussWrapper × List Report × Bool × Option DsError :=
  checkMeetingsAux w [] false (w.rcfile.entries.map (fun p => p.1))

instance {ε α : Type} [DecidableEq ε] [DecidableEq α] :
    DecidableEq (Except ε α) := fun x y =>
  match x, y with
  | .ok a, .ok b =>
    if h : a = b then isTrue (by rw [h])
    else isFalse (fun hh => h (Except.ok.inj hh))
  | .error a, .error b =>
    if h : a = b then isTrue (by rw [h])
    else isFalse (fun hh => h (Except.error.inj hh))
  | .ok _, .error _ => isFalse (fun hh => Except.noConfusion hh)
  | .error _, .ok _ => isFalse (fun hh => Except.noConfusion hh)

/-- Location of the concrete demo meeting used in witnesses. -/
def locW : Location := ("menelaus.mit.edu", "/usr/spool/discuss/demo")

/-- A live transaction numbered k with gap-free neighbour pointers. -/
def trnW (k : Int) : Transaction :=
  { current := k, prev := k - 1, next := k + 1, pref := 0, nref := 0,
    fref := k, lref := k }

/-- Concrete remote transaction table: 13 is live, 10..12 are deleted,
    every other number does not exist. -/
def fetchW : Int → Except DsError Transaction := fun t =>
  if t = 13 then .ok (trnW 13)
  else if 10 ≤ t ∧ t ≤ 12 then .error (.discussError DELETED_TRN)
  else .error (.discussError NO_SUCH_TRN)

/-- Concrete demo meeting: full range 1..25, live range 5..20. -/
def mtgW : Meeting :=
  { id := locW, long_name := "demo-long", short_name := "demo",
    access_modes := "arw", lowest := 1, highest := 25, first := 5, last := 20,
    fetch := fetchW }

/-- Registry holding the demo meeting with its cursor at 9. -/
def rcW : RCFile :=
  RCFile.mk [(locW,
    { names := ["demo-long", "demo"], last_transaction := 9, deleted := false })]

/-- Registry holding the demo meeting with its cursor at 15. -/
def rcW15 : RCFile :=
  RCFile.mk [(locW,
    { names := ["demo-long", "demo"], last_transaction := 15, deleted := false })]

/-- Registry holding the demo meeting with its cursor exactly at last = 20. -/
def rcAtLast : RCFile :=
  RCFile.mk [(locW,
    { names := ["demo-long", "demo"], last_transaction := 20, deleted := false })]

/-- Registry holding the demo meeting with a stale cursor at 25, beyond
    last = 20. -/
def rcStale : RCFile :=
  RCFile.mk [(locW,
    { names := ["demo-long", "demo"], last_transaction := 25, deleted := false })]

/-- A transaction sitting at the start of its meeting: prev = 0. -/
def trnStart : Transaction :=
  { current := 5, prev := 0, next := 6, pref := 0, nref := 0, fref := 5, lref := 5 }

/-- The metadata record of the demo meeting as load_info returns it. -/
def infoW : MeetingInfo :=
  { long_name := "demo-long", short_name := "demo", access_modes := "arw",
    lowest := 1, highest := 25, first := 5, last := 20 }

/-- Concrete remote world: every connection attempt succeeds, the probe of
    transaction 0 fails with NO_SUCH_TRN (the pre-deleted slot), metadata
    loads as infoW, and transactions resolve through fetchW. -/
def remoteW : Remote :=
  { connect := fun _ => none,
    checkUpdate := fun _ _ => .error (.discussError NO_SUCH_TRN),
    loadInfo := fun _ => .ok infoW,
    fetch := fun _ => fetchW }

/-- Wrapper with empty caches and an empty registry, talking to remoteW. -/
def wC5 : DiscussWrapper :=
  { meetingcache := [], connectioncache := [], timeout := 3,
    rcfile := RCFile.mk [], remote := remoteW, nextClientId := 0 }

/-- The handle the first _get_connection call on wC5 constructs. -/
def cC5 : Client := { id := 0, host := "menelaus.mit.edu", timeout := some 3 }

/-- wC5 after its first _get_connection call for menelaus.mit.edu. -/
def wC5x : DiscussWrapper := (_get_connection wC5 "menelaus.mit.edu").2

/-- Wrapper with empty caches whose registry already lists the demo
    meeting (cursor 9), talking to remoteW. -/
def wC6 : DiscussWrapper :=
  { meetingcache := [], connectioncache := [], timeout := 3,
    rcfile := rcW, remote := remoteW, nextClientId := 0 }

/-- wC6 after the connection for the demo meeting's host was obtained. -/
def wC6c : DiscussWrapper := (_get_connection wC6 "menelaus.mit.edu").2

/-- The Meeting object get_meeting builds and caches for the demo
    meeting. -/
def mtgV : Meeting := mkMeeting remoteW locW infoW

/-- Locations of the two meetings of the bulk-scan scenarios. -/
def locA : Location := ("hostA.mit.edu", "/usr/spool/discuss/a")

/-- Location of the second bulk-scan meeting. -/
def locB : Location := ("hostB.mit.edu", "/usr/spool/discuss/b")

/-- Registry listing the two bulk-scan meetings, neither flagged
    deleted. -/
def rc7 : RCFile :=
  RCFile.mk
    [(locA, { names := ["mtg-a"], last_transaction := 0, deleted := false }),
     (locB, { names := ["mtg-b"], last_transaction := 0, deleted := false })]

/-- Remote world where connecting to hostA fails with a non-timeout socket
    error and connecting to hostB times out. -/
def remote7 : Remote :=
  { connect := fun h => if h = "hostA.mit.edu" then some .socketError
                        else some .socketTimeout,
    checkUpdate := fun _ _ => .error (.discussError NO_SUCH_TRN),
    loadInfo := fun _ => .ok infoW,
    fetch := fun _ => fetchW }

/-- Remote world where every connection attempt times out. -/
def remote7b : Remote :=
  { connect := fun _ => some .socketTimeout,
    checkUpdate := fun _ _ => .error (.discussError NO_SUCH_TRN),
    loadInfo := fun _ => .ok infoW,
    fetch := fun _ => fetchW }

/-- Scan wrapper whose first meeting raises a non-timeout socket error. -/
def wC7 : DiscussWrapper :=
  { meetingcache := [], connectioncache := [], timeout := 3,
    rcfile := rc7, remote := remote7, nextClientId := 0 }

/-- Scan wrapper whose meetings all time out. -/
def wC7b : DiscussWrapper :=
  { meetingcache := [], connectioncache := [], timeout := 3,
    rcfile := rc7, remote := remote7b, nextClientId := 0 }

-- ### helper lemmas about the registry

theorem lookupAssoc_isSome_of_mem {α β : Type} [DecidableEq α]
    (l : List (α × β)) (p : α × β) (h : p ∈ l) :
    ∃ b, lookupAssoc l p.1 = some b := by
  induction l with
  | nil => cases h
  | cons hd tl ih =>
    by_cases hh : hd.1 = p.1
    · exact ⟨hd.2, by simp [lookupAssoc, hh]⟩
    · rcases List.mem_cons.mp h with h1 | h1
      · exact absurd (by rw [h1]) hh
      · obtain ⟨b, hb⟩ := ih h1
        exact ⟨b, by simp [lookupAssoc, hh, hb]⟩

theorem lookup_touch (rc : RCFile) (loc : Location) (n : Int) (nm : String) :
    (rc.touch loc n).lookup nm = rc.lookup nm := by
  unfold RCFile.touch RCFile.lookup
  rw [List.find?_map]
  have h1 : (fun p : Location × Entry => p.2.names.contains nm) ∘
      (fun p : Location × Entry =>
        if p.1 = loc then (p.1, { p.2 with last_transaction := n }) else p) =
      fun p : Location × Entry => p.2.names.contains nm := by
    funext q
    by_cases h : q.1 = loc <;> simp [h]
  rw [h1, Option.map_map]
  congr 1
  funext q
  by_cases h : q.1 = loc <;> simp [h]

theorem getEntry_touch_self (rc : RCFile) (loc : Location) (n : Int) :
    (rc.touch loc n).getEntry loc =
      (rc.getEntry loc).map (fun e => { e with last_transaction := n }) := by
  obtain ⟨l⟩ := rc
  unfold RCFile.touch RCFile.getEntry
  induction l with
  | nil => rfl
  | cons hd tl ih =>
    by_cases h : hd.1 = loc
    · simp [lookupAssoc, h]
    · simpa [lookupAssoc, h] using ih

theorem lookup_some_getEntry (rc : RCFile) (nm : String) (loc : Location)
    (h : rc.lookup nm = some loc) : ∃ e, rc.getEntry loc = some e := by
  unfold RCFile.lookup at h
  obtain ⟨p, hfind, hp1⟩ := Option.map_eq_some'.mp h
  have hmem : p ∈ rc.entries := List.mem_of_find?_eq_some hfind
  obtain ⟨b, hb⟩ := lookupAssoc_isSome_of_mem rc.entries p hmem
  exact ⟨b, by rw [← hp1]; exact hb⟩

theorem lastRead_touch (rc : RCFile) (mtg : Meeting) (n : Int)
    (hname : rc.lookup mtg.long_name = some mtg.id) :
    _last_read_transaction (rc.touch mtg.id n) mtg = .ok n := by
  obtain ⟨e, he⟩ := lookup_some_getEntry rc mtg.long_name mtg.id hname
  unfold _last_read_transaction
  simp only [lookup_touch, hname, getEntry_touch_self, he, Option.map_some]
  rfl

-- ### C1

/-- C1: the demo meeting has live range 5..20 and the stored cursor is
    25, at or beyond last; instead of clamping the start to 20 and
    returning the transaction there, find_next_valid_transaction fails:
    the source calls self.go_to_transaction, a method DiscussWrapper does
    not define, so the lookup raises AttributeError. -/
theorem c1_stale_cursor_raises :
    find_next_valid_transaction rcStale mtgW false =
      .error (.attributeError "go_to_transaction") := by rfl

-- ### C2

/-- C2 counterexample: 3 is below the demo meeting's first = 5, so the
    claim demands a range error, but get_transaction accepts it (3 is
    within lowest..highest = 1..25) and surfaces the remote's
    NO_SUCH_TRN DiscussError instead of ValueError. -/
theorem c2_range_check_counterexample :
    (3 : Int) < mtgW.first ∧
    get_transaction rcW mtgW 3 true = .error (.discussError NO_SUCH_TRN) ∧
    DsError.discussError NO_SUCH_TRN ≠ DsError.valueError :=
  ⟨by decide, by rfl, by decide⟩

/-- C2 (amended): get_transaction fails with ValueError exactly on numbers
    outside lowest..highest (not first..last); in range it fetches the
    transaction through the Meeting, propagating the fetch's own error,
    and on success records it as last read exactly when the update flag is
    set. -/
theorem c2_range_check_amended (rc : RCFile) (mtg : Meeting) (n : Int) (u : Bool) :
    ((n < mtg.lowest ∨ mtg.highest < n) →
        get_transaction rc mtg n u = .error .valueError)
    ∧ (mtg.lowest ≤ n → n ≤ mtg.highest →
        (∀ trn, mtg.fetch n = .ok trn →
            get_transaction rc mtg n u =
              .ok (trn, if u then touch_meeting rc mtg trn else rc))
        ∧ (∀ e, mtg.fetch n = .error e → get_transaction rc mtg n u = .error e)) := by
  refine ⟨fun h => ?_, fun h1 h2 => ⟨fun trn hf => ?_, fun e hf => ?_⟩⟩
  · unfold get_transaction
    rw [if_pos h]
  · unfold get_transaction
    rw [if_neg (by omega), hf]
  · unfold get_transaction
    rw [if_neg (by omega), hf]

/-- C2 witness: fetching live transaction 13 of the demo meeting with the
    update flag set succeeds and touches the registry. -/
theorem c2_range_check_witness :
    get_transaction rcW mtgW 13 true =
      .ok (trnW 13, touch_meeting rcW mtgW (trnW 13)) :=
  ((c2_range_check_amended rcW mtgW 13 true).2 (by decide) (by decide)).1
    (trnW 13) rfl

-- ### C9

/-- C9: recording a view of a transaction through touch_meeting and then
    querying the last read position of the same meeting returns exactly
    the recorded transaction's number, provided the meeting's long name
    resolves in the registry to the meeting's own location key. -/
theorem c9_record_view_round_trip (rc : RCFile) (mtg : Meeting) (trn : Transaction)
    (hname : rc.lookup mtg.long_name = some mtg.id) :
    _last_read_transaction (touch_meeting rc mtg trn) mtg = .ok trn.current :=
  lastRead_touch rc mtg trn.current hname

/-- C9 witness: recording transaction 13 of the demo meeting and reading
    the cursor back yields 13. -/
theorem c9_record_view_round_trip_witness :
    _last_read_transaction (touch_meeting rcW mtgW (trnW 13)) mtgW = .ok 13 :=
  c9_record_view_round_trip rcW mtgW (trnW 13) rfl

-- ### inversion lemmas for the navigator walk

theorem get_transaction_ok_inv (rc : RCFile) (mtg : Meeting) (t : Int)
    (trn : Transaction) (rc2 : RCFile)
    (h : get_transaction rc mtg t true = .ok (trn, rc2)) :
    mtg.fetch t = .ok trn ∧ rc2 = touch_meeting rc mtg trn := by
  unfold get_transaction at h
  split at h
  · exact absurd h (by simp)
  · cases hf : mtg.fetch t with
    | error e => rw [hf] at h; exact absurd h (by simp)
    | ok tr =>
      rw [hf] at h
      simp only [if_true] at h
      obtain ⟨h1, h2⟩ := Prod.mk.injEq .. ▸ Except.ok.inj h
      subst h1
      exact ⟨rfl, h2.symm⟩

theorem walkFrom_ok_inv (rc : RCFile) (mtg : Meeting) (inc : Int) :
    ∀ (n : Nat) (s : Int) (res : Option Transaction) (rc2 : RCFile),
    walkFrom rc mtg inc s n = .ok (res, rc2) →
    (res = none → rc2 = rc) ∧
    (∀ trn, res = some trn →
      ∃ t, mtg.fetch t = .ok trn ∧ rc2 = touch_meeting rc mtg trn) := by
  intro n
  induction n with
  | zero =>
    intro s res rc2 h
    simp only [walkFrom] at h
    obtain ⟨h1, h2⟩ := Prod.mk.injEq .. ▸ Except.ok.inj h
    subst h1; subst h2
    exact ⟨fun _ => rfl, fun trn htrn => by cases htrn⟩
  | succ m ih =>
    intro s res rc2 h
    simp only [walkFrom] at h
    cases hg : get_transaction rc mtg s true with
    | ok pr =>
      rw [hg] at h
      obtain ⟨h1, h2⟩ := Prod.mk.injEq .. ▸ Except.ok.inj h
      refine ⟨fun hn => ?_, fun trn htrn => ?_⟩
      · rw [← h1] at hn; cases hn
      · rw [← h1] at htrn
        obtain ⟨hf, hs⟩ := get_transaction_ok_inv rc mtg s pr.1 pr.2 (by rw [hg])
        refine ⟨s, ?_, ?_⟩
        · rw [hf]; exact congrArg Except.ok (Option.some.inj htrn)
        · rw [← h2, hs]
          exact congrArg (touch_meeting rc mtg) (Option.some.inj htrn)
    | error e =>
      rw [hg] at h
      cases e with
      | discussError c =>
        simp only at h
        split at h
        · exact ih (s + inc) res rc2 h
        · exact absurd h (by simp)
      | protocolError => exact absurd h (by simp)
      | socketTimeout => exact absurd h (by simp)
      | socketError => exact absurd h (by simp)
      | valueError => exact absurd h (by simp)
      | keyError => exact absurd h (by simp)
      | indexError => exact absurd h (by simp)
      | typeError => exact absurd h (by simp)
      | duplicateError => exact absurd h (by simp)
      | attributeError m => exact absurd h (by simp)

theorem find_next_ok_inv (rc : RCFile) (mtg : Meeting) (bw : Bool)
    (res : Option Transaction) (rc2 : RCFile)
    (h : find_next_valid_transaction rc mtg bw = .ok (res, rc2)) :
    ∃ inc s n, walkFrom rc mtg inc s n = .ok (res, rc2) := by
  unfold find_next_valid_transaction at h
  cases hl : _last_read_transaction rc mtg with
  | error e => rw [hl] at h; exact absurd h (by simp)
  | ok c =>
    rw [hl] at h
    simp only at h
    split at h
    · exact absurd h (by simp)
    · split at h
      · exact absurd h (by simp)
      · exact ⟨_, _, _, h⟩

-- ### C10

/-- C10: whenever find_next_valid_transaction returns a transaction, the
    registry cursor has been touched to exactly that transaction's number
    (the internal get_transaction runs with the update flag defaulted on);
    a walk that only skipped candidates leaves the registry untouched; and
    a subsequent last-read query on the updated registry returns the found
    transaction's number. -/
theorem c10_cursor_side_effect (rc : RCFile) (mtg : Meeting) (bw : Bool) :
    (∀ trn rc2, find_next_valid_transaction rc mtg bw = .ok (some trn, rc2) →
        rc2 = touch_meeting rc mtg trn)
    ∧ (∀ rc2, find_next_valid_transaction rc mtg bw = .ok (none, rc2) →
        rc2 = rc)
    ∧ (∀ trn rc2, find_next_valid_transaction rc mtg bw = .ok (some trn, rc2) →
        rc.lookup mtg.long_name = some mtg.id →
        _last_read_transaction rc2 mtg = .ok trn.current) := by
  refine ⟨fun trn rc2 h => ?_, fun rc2 h => ?_, fun trn rc2 h hname => ?_⟩
  · obtain ⟨inc, s, n, hw⟩ := find_next_ok_inv rc mtg bw (some trn) rc2 h
    obtain ⟨-, hsome⟩ := walkFrom_ok_inv rc mtg inc n s (some trn) rc2 hw
    obtain ⟨t, -, hs⟩ := hsome trn rfl
    exact hs
  · obtain ⟨inc, s, n, hw⟩ := find_next_ok_inv rc mtg bw none rc2 h
    obtain ⟨hnone, -⟩ := walkFrom_ok_inv rc mtg inc n s none rc2 hw
    exact hnone rfl
  · obtain ⟨inc, s, n, hw⟩ := find_next_ok_inv rc mtg bw (some trn) rc2 h
    obtain ⟨-, hsome⟩ := walkFrom_ok_inv rc mtg inc n s (some trn) rc2 hw
    obtain ⟨t, -, hs⟩ := hsome trn rfl
    rw [hs]
    exact lastRead_touch rc mtg trn.current hname

/-- C10 witness: walking backward from cursor 15 in the demo meeting finds
    transaction 13 and the registry then reports 13 as last read. -/
theorem c10_cursor_side_effect_witness :
    _last_read_transaction (touch_meeting rcW15 mtgW (trnW 13)) mtgW = .ok 13 :=
  (c10_cursor_side_effect rcW15 mtgW true).2.2 (trnW 13)
    (touch_meeting rcW15 mtgW (trnW 13)) (by rfl) (by rfl)

-- ### C4

/-- C4: for any starting registry state (any cursor, in or out of range)
    and either direction, whenever find_next_valid_transaction returns a
    transaction, that transaction was obtained from the remote fetch, so
    under the meeting invariant that live transactions carry their own
    number and only exist at numbers within first..last, the returned
    number lies in first..last and is not one the walk skipped as deleted
    (a skipped number has an erroring fetch, while the returned number's
    fetch succeeds). -/
theorem c4_result_in_range (rc rc2 : RCFile) (mtg : Meeting) (bw : Bool)
    (trn : Transaction)
    (hfetch : ∀ t tr, mtg.fetch t = .ok tr →
        tr.current = t ∧ mtg.first ≤ t ∧ t ≤ mtg.last)
    (hres : find_next_valid_transaction rc mtg bw = .ok (some trn, rc2)) :
    mtg.first ≤ trn.current ∧ trn.current ≤ mtg.last ∧
      mtg.fetch trn.current = .ok trn := by
  obtain ⟨inc, s, n, hw⟩ := find_next_ok_inv rc mtg bw (some trn) rc2 hres
  obtain ⟨-, hsome⟩ := walkFrom_ok_inv rc mtg inc n s (some trn) rc2 hw
  obtain ⟨t, hft, -⟩ := hsome trn rfl
  obtain ⟨hcur, h1, h2⟩ := hfetch t trn hft
  rw [hcur]
  exact ⟨h1, h2, hft⟩

/-- C4 witness: the forward walk from cursor 9 in the demo meeting returns
    transaction 13, whose number is in 5..20 and whose fetch is live. -/
theorem c4_result_in_range_witness :
    mtgW.first ≤ (trnW 13).current ∧ (trnW 13).current ≤ mtgW.last ∧
      mtgW.fetch ((trnW 13).current) = .ok (trnW 13) :=
  c4_result_in_range rcW (touch_meeting rcW mtgW (trnW 13)) mtgW false (trnW 13)
    (by
      intro t tr h
      have h2 : fetchW t = .ok tr := h
      unfold fetchW at h2
      split at h2
      · next ht =>
        obtain rfl : trnW 13 = tr := Except.ok.inj h2
        refine ⟨by rw [ht]; rfl, by rw [ht]; decide, by rw [ht]; decide⟩
      · split at h2
        · exact Except.noConfusion h2
        · exact Except.noConfusion h2)
    (by rfl)

-- ### the lazy window loader

theorem loadMoreAux_ok (fetch : Int → Except DsError Transaction) :
    ∀ (num : Nat) (trn : Transaction) (win w2 : List Transaction),
    win.getD 0 defaultTrn = trn → win ≠ [] →
    loadMoreAux fetch trn win num = .ok w2 →
    ∃ m, m ≤ num ∧ w2.length = m + win.length ∧ w2.drop m = win ∧
      (∀ i, i < m → (w2.getD (i + 1) defaultTrn).prev ≠ 0 ∧
        fetch ((w2.getD (i + 1) defaultTrn).prev) = .ok (w2.getD i defaultTrn)) := by
  intro num
  induction num with
  | zero =>
    intro trn win w2 hhead hne h
    simp only [loadMoreAux] at h
    obtain rfl := Except.ok.inj h
    exact ⟨0, by omega, by omega, rfl, fun i hi => absurd hi (by omega)⟩
  | succ k ih =>
    intro trn win w2 hhead hne h
    simp only [loadMoreAux] at h
    split at h
    · obtain rfl := Except.ok.inj h
      exact ⟨0, by omega, by omega, rfl, fun i hi => absurd hi (by omega)⟩
    · next hprev =>
      cases hf : fetch trn.prev with
      | error e => rw [hf] at h; exact Except.noConfusion h
      | ok t2 =>
        rw [hf] at h
        obtain ⟨m, hm, hlen, hdrop, hchain⟩ :=
          ih t2 (t2 :: win) w2 rfl (by simp) h
        have hw2m : w2[m]? = some t2 := by
          have h0 := List.getElem?_drop w2 m 0
          rw [hdrop] at h0
          simpa using h0.symm
        have hwin0 : win[0]? = some trn := by
          cases win with
          | nil => exact absurd rfl hne
          | cons a rest =>
            have ha : a = trn := hhead
            rw [ha]
            simp
        have hw2m1 : w2[m + 1]? = some trn := by
          have h1 := List.getElem?_drop w2 m 1
          rw [hdrop] at h1
          rw [← h1, List.getElem?_cons_succ]
          exact hwin0
        have hgm : w2.getD m defaultTrn = t2 := by
          rw [List.getD_eq_getElem?_getD, hw2m]
          rfl
        have hgm1 : w2.getD (m + 1) defaultTrn = trn := by
          rw [List.getD_eq_getElem?_getD, hw2m1]
          rfl
        refine ⟨m + 1, by omega, ?_, ?_, ?_⟩
        · simp only [List.length_cons] at hlen
          omega
        · rw [← List.tail_drop, hdrop]
          rfl
        · intro i hi
          by_cases hik : i < m
          · exact hchain i hik
          · have hieq : i = m := by omega
            subst hieq
            rw [hgm, hgm1]
            exact ⟨hprev, hf⟩

-- ### C8

/-- C8: extending a nonempty window backward by num prepends at most num
    transactions, the old window survives as the suffix, each prepended
    transaction is the remote fetch of the prev pointer of the row just
    above it (that pointer being nonzero), and once the oldest row's prev
    pointer is 0 (start of the meeting) any further backward extension is
    a no-op that succeeds without error. -/
theorem c8_extend_backward (mtg : Meeting) (t : Transaction)
    (ws : List Transaction) :
    (∀ num w2, load_more_transactions mtg (t :: ws) num = .ok w2 →
      ∃ m, m ≤ num ∧ w2.length = m + (t :: ws).length ∧ w2.drop m = t :: ws ∧
        (∀ i, i < m → (w2.getD (i + 1) defaultTrn).prev ≠ 0 ∧
          mtg.fetch ((w2.getD (i + 1) defaultTrn).prev) =
            .ok (w2.getD i defaultTrn)))
    ∧ (t.prev = 0 →
        ∀ num, load_more_transactions mtg (t :: ws) num = .ok (t :: ws)) := by
  constructor
  · intro num w2 h
    exact loadMoreAux_ok mtg.fetch num t (t :: ws) w2 rfl (by simp) h
  · intro hp num
    cases num with
    | zero => rfl
    | succ k => simp [load_more_transactions, loadMoreAux, hp]

/-- C8 witness: a window anchored at the start of the meeting (oldest row
    has prev = 0) is left unchanged, without error, by a further backward
    extension request of 7. -/
theorem c8_extend_backward_witness :
    load_more_transactions mtgW [trnStart] 7 = .ok [trnStart] :=
  (c8_extend_backward mtgW trnStart []).2 rfl 7

-- ### directional walk lemmas

theorem isSkipErr_true_iff (r : Except DsError Transaction) :
    isSkipErr r = true ↔
      ∃ c, r = .error (.discussError c) ∧
        (c = DELETED_TRN ∨ c = NO_SUCH_TRN) := by
  cases r with
  | ok t => simp [isSkipErr]
  | error e => cases e <;> simp [isSkipErr]

theorem get_transaction_spec (rc : RCFile) (mtg : Meeting) (n : Int) (u : Bool) :
    ((n < mtg.lowest ∨ mtg.highest < n) →
        get_transaction rc mtg n u = .error .valueError)
    ∧ (mtg.lowest ≤ n → n ≤ mtg.highest →
        (∀ trn, mtg.fetch n = .ok trn →
            get_transaction rc mtg n u =
              .ok (trn, if u then touch_meeting rc mtg trn else rc))
        ∧ (∀ e, mtg.fetch n = .error e →
            get_transaction rc mtg n u = .error e)) := by
  refine ⟨fun h => ?_, fun h1 h2 => ⟨fun trn hf => ?_, fun e hf => ?_⟩⟩
  · unfold get_transaction
    rw [if_pos h]
  · unfold get_transaction
    rw [if_neg (by omega), hf]
  · unfold get_transaction
    rw [if_neg (by omega), hf]

theorem walkFrom_fwd_none (rc : RCFile) (mtg : Meeting) :
    ∀ (n : Nat) (s : Int),
    (∀ t : Int, s ≤ t → t < s + n →
      ∃ c, get_transaction rc mtg t true = .error (.discussError c) ∧
        (c = DELETED_TRN ∨ c = NO_SUCH_TRN)) →
    walkFrom rc mtg 1 s n = .ok (none, rc) := by
  intro n
  induction n with
  | zero => intro s _; rfl
  | succ k ih =>
    intro s h
    obtain ⟨c, hc, hcs⟩ := h s le_rfl (by omega)
    simp only [walkFrom, hc]
    rw [if_pos hcs]
    exact ih (s + 1) (fun t h1 h2 => h t (by omega) (by omega))

theorem walkFrom_fwd_found (rc : RCFile) (mtg : Meeting) :
    ∀ (n : Nat) (s t0 : Int) (trn : Transaction) (rc2 : RCFile),
    s ≤ t0 → t0 < s + n →
    get_transaction rc mtg t0 true = .ok (trn, rc2) →
    (∀ t : Int, s ≤ t → t < t0 →
      ∃ c, get_transaction rc mtg t true = .error (.discussError c) ∧
        (c = DELETED_TRN ∨ c = NO_SUCH_TRN)) →
    walkFrom rc mtg 1 s n = .ok (some trn, rc2) := by
  intro n
  induction n with
  | zero => intro s t0 trn rc2 h1 h2 _ _; exact absurd h2 (by omega)
  | succ k ih =>
    intro s t0 trn rc2 h1 h2 hok hskip
    by_cases hst : s = t0
    · subst hst
      simp [walkFrom, hok]
    · obtain ⟨c, hc, hcs⟩ := hskip s le_rfl (by omega)
      simp only [walkFrom, hc]
      rw [if_pos hcs]
      exact ih (s + 1) t0 trn rc2 (by omega) (by omega) hok
        (fun t ha hb => hskip t (by omega) hb)

theorem walkFrom_fwd_err (rc : RCFile) (mtg : Meeting) :
    ∀ (n : Nat) (s t0 : Int) (e : DsError),
    s ≤ t0 → t0 < s + n →
    get_transaction rc mtg t0 true = .error e →
    isSkipErr (Except.error e) = false →
    (∀ t : Int, s ≤ t → t < t0 →
      ∃ c, get_transaction rc mtg t true = .error (.discussError c) ∧
        (c = DELETED_TRN ∨ c = NO_SUCH_TRN)) →
    walkFrom rc mtg 1 s n = .error e := by
  intro n
  induction n with
  | zero => intro s t0 e h1 h2 _ _ _; exact absurd h2 (by omega)
  | succ k ih =>
    intro s t0 e h1 h2 herr hns hskip
    by_cases hst : s = t0
    · subst hst
      rcases e with c | _ | _ | _ | _ | _ | _ | _ | _ | m
      · simp only [isSkipErr, Bool.or_eq_false_iff, beq_eq_false_iff_ne,
          ne_eq] at hns
        simp only [walkFrom, herr]
        rw [if_neg (fun hor => hor.elim hns.1 hns.2)]
      all_goals simp [walkFrom, herr]
    · obtain ⟨c, hc, hcs⟩ := hskip s le_rfl (by omega)
      simp only [walkFrom, hc]
      rw [if_pos hcs]
      exact ih (s + 1) t0 e (by omega) (by omega) herr hns
        (fun t ha hb => hskip t (by omega) hb)

theorem walkFrom_bwd_none (rc : RCFile) (mtg : Meeting) :
    ∀ (n : Nat) (s : Int),
    (∀ t : Int, s - n < t → t ≤ s →
      ∃ c, get_transaction rc mtg t true = .error (.discussError c) ∧
        (c = DELETED_TRN ∨ c = NO_SUCH_TRN)) →
    walkFrom rc mtg (-1) s n = .ok (none, rc) := by
  intro n
  induction n with
  | zero => intro s _; rfl
  | succ k ih =>
    intro s h
    obtain ⟨c, hc, hcs⟩ := h s (by omega) le_rfl
    simp only [walkFrom, hc]
    rw [if_pos hcs]
    exact ih (s + -1) (fun t h1 h2 => h t (by omega) (by omega))

theorem walkFrom_bwd_found (rc : RCFile) (mtg : Meeting) :
    ∀ (n : Nat) (s t0 : Int) (trn : Transaction) (rc2 : RCFile),
    t0 ≤ s → s - n < t0 →
    get_transaction rc mtg t0 true = .ok (trn, rc2) →
    (∀ t : Int, t0 < t → t ≤ s →
      ∃ c, get_transaction rc mtg t true = .error (.discussError c) ∧
        (c = DELETED_TRN ∨ c = NO_SUCH_TRN)) →
    walkFrom rc mtg (-1) s n = .ok (some trn, rc2) := by
  intro n
  induction n with
  | zero => intro s t0 trn rc2 h1 h2 _ _; exact absurd h2 (by omega)
  | succ k ih =>
    intro s t0 trn rc2 h1 h2 hok hskip
    by_cases hst : s = t0
    · subst hst
      simp [walkFrom, hok]
    · obtain ⟨c, hc, hcs⟩ := hskip s (by omega) le_rfl
      simp only [walkFrom, hc]
      rw [if_pos hcs]
      exact ih (s + -1) t0 trn rc2 (by omega) (by omega) hok
        (fun t ha hb => hskip t ha (by omega))

theorem walkFrom_bwd_err (rc : RCFile) (mtg : Meeting) :
    ∀ (n : Nat) (s t0 : Int) (e : DsError),
    t0 ≤ s → s - n < t0 →
    get_transaction rc mtg t0 true = .error e →
    isSkipErr (Except.error e) = false →
    (∀ t : Int, t0 < t → t ≤ s →
      ∃ c, get_transaction rc mtg t true = .error (.discussError c) ∧
        (c = DELETED_TRN ∨ c = NO_SUCH_TRN)) →
    walkFrom rc mtg (-1) s n = .error e := by
  intro n
  induction n with
  | zero => intro s t0 e h1 h2 _ _ _; exact absurd h2 (by omega)
  | succ k ih =>
    intro s t0 e h1 h2 herr hns hskip
    by_cases hst : s = t0
    · subst hst
      rcases e with c | _ | _ | _ | _ | _ | _ | _ | _ | m
      · simp only [isSkipErr, Bool.or_eq_false_iff, beq_eq_false_iff_ne,
          ne_eq] at hns
        simp only [walkFrom, herr]
        rw [if_neg (fun hor => hor.elim hns.1 hns.2)]
      all_goals simp [walkFrom, herr]
    · obtain ⟨c, hc, hcs⟩ := hskip s (by omega) le_rfl
      simp only [walkFrom, hc]
      rw [if_pos hcs]
      exact ih (s + -1) t0 e (by omega) (by omega) herr hns
        (fun t ha hb => hskip t ha (by omega))

theorem find_next_fwd_eq (rc : RCFile) (mtg : Meeting) (c : Int)
    (hc : _last_read_transaction rc mtg = .ok c) (hlt : c < mtg.last) :
    find_next_valid_transaction rc mtg false =
      walkFrom rc mtg 1 (c + 1) (mtg.last - c).toNat := by
  simp only [find_next_valid_transaction, hc]
  split
  · next hcond => exact absurd hcond.2 (by omega)
  · split
    · next hcond => exact Bool.noConfusion hcond.1
    · rfl

theorem find_next_bwd_eq (rc : RCFile) (mtg : Meeting) (c : Int)
    (hc : _last_read_transaction rc mtg = .ok c) (hgt : mtg.first < c) :
    find_next_valid_transaction rc mtg true =
      walkFrom rc mtg (-1) (c + -1) (c - mtg.first).toNat := by
  simp only [find_next_valid_transaction, hc]
  split
  · next hcond => exact Bool.noConfusion hcond.1
  · split
    · next hcond => exact absurd hcond.2 (by omega)
    · rfl

-- ### C3

/-- C3 counterexample: cursor 20 is within the demo meeting's range 5..20,
    the walk forward from it is empty so the claim demands the non-error
    none-found result, but find_next_valid_transaction raises
    AttributeError through the undefined go_to_transaction call taken when
    the cursor is at or beyond last. -/
theorem c3_boundary_counterexample :
    mtgW.first ≤ (20 : Int) ∧ (20 : Int) ≤ mtgW.last ∧
    _last_read_transaction rcAtLast mtgW = .ok 20 ∧
    find_next_valid_transaction rcAtLast mtgW false =
      .error (.attributeError "go_to_transaction") :=
  ⟨by decide, by decide, by rfl, by rfl⟩

/-- C3 (amended): for a cursor strictly inside the walk boundary (cursor
    before last when walking forward, after first when walking backward;
    at the boundary itself the undefined go_to_transaction call fires
    instead), find_next_valid_transaction starts one step past the cursor,
    walks toward last (forward) or first (backward), skips every number
    fetching as DELETED_TRN or NO_SUCH_TRN, returns the first live
    transaction, propagates any other fetch error, and returns the
    non-error none-found value when the walk exhausts the range. -/
theorem c3_walk_amended (rc : RCFile) (mtg : Meeting) (c : Int)
    (hlo : mtg.lowest ≤ mtg.first) (hhi : mtg.last ≤ mtg.highest)
    (hc : _last_read_transaction rc mtg = .ok c)
    (hc1 : mtg.first ≤ c) (hc2 : c ≤ mtg.last) :
    (c < mtg.last →
      ((∀ t : Int, c < t → t ≤ mtg.last → isSkipErr (mtg.fetch t) = true) →
          find_next_valid_transaction rc mtg false = .ok (none, rc))
      ∧ (∀ (t0 : Int) (trn : Transaction), c < t0 → t0 ≤ mtg.last →
          mtg.fetch t0 = .ok trn →
          (∀ t : Int, c < t → t < t0 → isSkipErr (mtg.fetch t) = true) →
          find_next_valid_transaction rc mtg false =
            .ok (some trn, touch_meeting rc mtg trn))
      ∧ (∀ (t0 : Int) (e : DsError), c < t0 → t0 ≤ mtg.last →
          mtg.fetch t0 = .error e → isSkipErr (Except.error e) = false →
          (∀ t : Int, c < t → t < t0 → isSkipErr (mtg.fetch t) = true) →
          find_next_valid_transaction rc mtg false = .error e))
    ∧ (mtg.first < c →
      ((∀ t : Int, mtg.first ≤ t → t < c → isSkipErr (mtg.fetch t) = true) →
          find_next_valid_transaction rc mtg true = .ok (none, rc))
      ∧ (∀ (t0 : Int) (trn : Transaction), mtg.first ≤ t0 → t0 < c →
          mtg.fetch t0 = .ok trn →
          (∀ t : Int, t0 < t → t < c → isSkipErr (mtg.fetch t) = true) →
          find_next_valid_transaction rc mtg true =
            .ok (some trn, touch_meeting rc mtg trn))
      ∧ (∀ (t0 : Int) (e : DsError), mtg.first ≤ t0 → t0 < c →
          mtg.fetch t0 = .error e → isSkipErr (Except.error e) = false →
          (∀ t : Int, t0 < t → t < c → isSkipErr (mtg.fetch t) = true) →
          find_next_valid_transaction rc mtg true = .error e)) := by
  have hin : ∀ t : Int, mtg.lowest ≤ t → t ≤ mtg.highest →
      (∀ trn, mtg.fetch t = .ok trn →
        get_transaction rc mtg t true = .ok (trn, touch_meeting rc mtg trn))
      ∧ (∀ e, mtg.fetch t = .error e →
        get_transaction rc mtg t true = .error e) := by
    intro t h1 h2
    have hs := (get_transaction_spec rc mtg t true).2 h1 h2
    exact ⟨fun trn hf => by simpa using hs.1 trn hf, hs.2⟩
  constructor
  · intro hclt
    have hskipconv : ∀ (t0 : Int), t0 ≤ mtg.last + 1 →
        (∀ t : Int, c < t → t < t0 → isSkipErr (mtg.fetch t) = true) →
        ∀ t : Int, c + 1 ≤ t → t < t0 →
          ∃ cc, get_transaction rc mtg t true = .error (.discussError cc) ∧
            (cc = DELETED_TRN ∨ cc = NO_SUCH_TRN) := by
      intro t0 ht0 hs t ha hb
      obtain ⟨cc, hf, hcc⟩ := (isSkipErr_true_iff _).mp (hs t (by omega) hb)
      exact ⟨cc, (hin t (by omega) (by omega)).2 _ hf, hcc⟩
    refine ⟨fun hall => ?_, fun t0 trn h1 h2 hok hs => ?_,
      fun t0 e h1 h2 herr hns hs => ?_⟩
    · rw [find_next_fwd_eq rc mtg c hc hclt]
      apply walkFrom_fwd_none
      intro t ha hb
      have hb2 : t ≤ mtg.last := by omega
      obtain ⟨cc, hf, hcc⟩ := (isSkipErr_true_iff _).mp (hall t (by omega) hb2)
      exact ⟨cc, (hin t (by omega) (by omega)).2 _ hf, hcc⟩
    · rw [find_next_fwd_eq rc mtg c hc hclt]
      exact walkFrom_fwd_found rc mtg _ (c + 1) t0 trn _ (by omega) (by omega)
        ((hin t0 (by omega) (by omega)).1 trn hok)
        (hskipconv t0 (by omega) hs)
    · rw [find_next_fwd_eq rc mtg c hc hclt]
      exact walkFrom_fwd_err rc mtg _ (c + 1) t0 e (by omega) (by omega)
        ((hin t0 (by omega) (by omega)).2 e herr) hns
        (hskipconv t0 (by omega) hs)
  · intro hcgt
    have hskipconv : ∀ (t0 : Int), mtg.first - 1 ≤ t0 →
        (∀ t : Int, t0 < t → t < c → isSkipErr (mtg.fetch t) = true) →
        ∀ t : Int, t0 < t → t ≤ c + -1 →
          ∃ cc, get_transaction rc mtg t true = .error (.discussError cc) ∧
            (cc = DELETED_TRN ∨ cc = NO_SUCH_TRN) := by
      intro t0 ht0 hs t ha hb
      obtain ⟨cc, hf, hcc⟩ := (isSkipErr_true_iff _).mp (hs t ha (by omega))
      exact ⟨cc, (hin t (by omega) (by omega)).2 _ hf, hcc⟩
    refine ⟨fun hall => ?_, fun t0 trn h1 h2 hok hs => ?_,
      fun t0 e h1 h2 herr hns hs => ?_⟩
    · rw [find_next_bwd_eq rc mtg c hc hcgt]
      apply walkFrom_bwd_none
      intro t ha hb
      have ha2 : mtg.first ≤ t := by omega
      obtain ⟨cc, hf, hcc⟩ := (isSkipErr_true_iff _).mp
        (hall t ha2 (by omega))
      exact ⟨cc, (hin t (by omega) (by omega)).2 _ hf, hcc⟩
    · rw [find_next_bwd_eq rc mtg c hc hcgt]
      exact walkFrom_bwd_found rc mtg _ (c + -1) t0 trn _ (by omega) (by omega)
        ((hin t0 (by omega) (by omega)).1 trn hok)
        (hskipconv t0 (by omega) hs)
    · rw [find_next_bwd_eq rc mtg c hc hcgt]
      exact walkFrom_bwd_err rc mtg _ (c + -1) t0 e (by omega) (by omega)
        ((hin t0 (by omega) (by omega)).2 e herr) hns
        (hskipconv t0 (by omega) hs)

/-- C3 witness: in the demo meeting (live range 5..20, 10..12 deleted)
    with cursor 9, the forward walk probes 10, 11, 12 as skips and returns
    live transaction 13, touching the registry with it. -/
theorem c3_walk_witness :
    find_next_valid_transaction rcW mtgW false =
      .ok (some (trnW 13), touch_meeting rcW mtgW (trnW 13)) :=
  ((c3_walk_amended rcW mtgW 9 (by decide) (by decide) (by rfl) (by decide)
      (by decide)).1 (by decide)).2.1 13 (trnW 13) (by decide) (by decide) rfl
    (by
      intro t h1 h2
      have h3 : t = 10 ∨ t = 11 ∨ t = 12 := by omega
      rcases h3 with h | h | h <;> subst h <;> rfl)

-- ### connection cache, meeting cache, bulk scan

theorem _get_connection_frame (w : DiscussWrapper) (host : String)
    (r : Except DsError Client) (w1 : DiscussWrapper)
    (h : _get_connection w host = (r, w1)) :
    w1.rcfile = w.rcfile ∧ w1.remote = w.remote ∧
      w1.meetingcache = w.meetingcache := by
  unfold _get_connection at h
  cases hcc : lookupAssoc w.connectioncache host with
  | some c0 =>
    rw [hcc] at h
    rw [Prod.mk.injEq] at h
    rw [← h.2]
    exact ⟨rfl, rfl, rfl⟩
  | none =>
    rw [hcc] at h
    cases hcon : w.remote.connect host with
    | some e =>
      rw [hcon] at h
      rw [Prod.mk.injEq] at h
      rw [← h.2]
      exact ⟨rfl, rfl, rfl⟩
    | none =>
      rw [hcon] at h
      rw [Prod.mk.injEq] at h
      rw [← h.2]
      exact ⟨rfl, rfl, rfl⟩

theorem get_meeting_cached (w : DiscussWrapper) (name : String)
    (loc : Location) (mtg : Meeting)
    (hl : w.rcfile.lookup name = some loc)
    (hm : lookupAssoc w.meetingcache loc = some mtg) :
    get_meeting w name = (.ok mtg, w) := by
  simp only [get_meeting, hl, get_meetingAt, hm]

-- ### C5

/-- C5 counterexample: with the handle for menelaus.mit.edu already
    memoized (object id 0), add_meeting for a meeting on the same host
    constructs a second fresh Client (the id counter advances to 2) instead
    of returning the memoized handle, which stays cached unchanged; so the
    wrapper does not keep at most one handle per host across every
    operation. -/
theorem c5_duplicate_handle_counterexample :
    (_get_connection wC5 "menelaus.mit.edu").1 = .ok cC5 ∧
    lookupAssoc wC5x.connectioncache "menelaus.mit.edu" = some cC5 ∧
    (add_meeting wC5x "menelaus.mit.edu" "/usr/spool/discuss/extra").map
        (fun w => (w.nextClientId,
          lookupAssoc w.connectioncache "menelaus.mit.edu")) =
      .ok (2, some cC5) :=
  ⟨by rfl, by rfl, by rfl⟩

/-- C5 (amended): _get_connection itself memoizes one handle per host — a
    cache hit returns the stored handle with no state change, any
    successful call leaves the returned handle cached so an immediately
    repeated call returns that very handle unchanged, and a failed call
    (connection error on a cache miss) caches nothing and leaves the
    wrapper as it was; add_meeting however bypasses this cache and builds
    a fresh Client (see the counterexample). -/
theorem c5_memoization_amended (w : DiscussWrapper) (host : String) :
    (∀ conn, lookupAssoc w.connectioncache host = some conn →
        _get_connection w host = (.ok conn, w))
    ∧ (∀ conn w1, _get_connection w host = (.ok conn, w1) →
        lookupAssoc w1.connectioncache host = some conn ∧
        _get_connection w1 host = (.ok conn, w1))
    ∧ (∀ e w1, _get_connection w host = (.error e, w1) →
        w1 = w ∧ lookupAssoc w.connectioncache host = none ∧
        w.remote.connect host = some e) := by
  refine ⟨fun conn hcc => ?_, fun conn w1 h => ?_, fun e w1 h => ?_⟩
  · unfold _get_connection
    rw [hcc]
  · unfold _get_connection at h
    cases hcc : lookupAssoc w.connectioncache host with
    | some c0 =>
      rw [hcc] at h
      rw [Prod.mk.injEq] at h
      obtain ⟨h1, h2⟩ := h
      obtain rfl := Except.ok.inj h1
      subst h2
      refine ⟨hcc, ?_⟩
      unfold _get_connection
      rw [hcc]
    | none =>
      rw [hcc] at h
      cases hcon : w.remote.connect host with
      | some e0 =>
        rw [hcon] at h
        rw [Prod.mk.injEq] at h
        exact absurd h.1 (fun hh => Except.noConfusion hh)
      | none =>
        rw [hcon] at h
        rw [Prod.mk.injEq] at h
        obtain ⟨h1, h2⟩ := h
        obtain rfl := Except.ok.inj h1
        subst h2
        constructor
        · simp [lookupAssoc]
        · unfold _get_connection
          simp [lookupAssoc]
  · unfold _get_connection at h
    cases hcc : lookupAssoc w.connectioncache host with
    | some c0 =>
      rw [hcc] at h
      rw [Prod.mk.injEq] at h
      exact absurd h.1 (fun hh => Except.noConfusion hh)
    | none =>
      rw [hcc] at h
      cases hcon : w.remote.connect host with
      | some e0 =>
        rw [hcon] at h
        rw [Prod.mk.injEq] at h
        obtain ⟨h1, h2⟩ := h
        obtain rfl := Except.error.inj h1
        subst h2
        exact ⟨rfl, rfl, rfl⟩
      | none =>
        rw [hcon] at h
        rw [Prod.mk.injEq] at h
        exact absurd h.1 (fun hh => Except.noConfusion hh)

/-- C5 witness: after the first call constructed and cached handle id 0
    for menelaus.mit.edu, the repeated call returns the very same handle
    with no state change. -/
theorem c5_memoization_witness :
    lookupAssoc wC5x.connectioncache "menelaus.mit.edu" = some cC5 ∧
    _get_connection wC5x "menelaus.mit.edu" = (.ok cC5, wC5x) :=
  (c5_memoization_amended wC5 "menelaus.mit.edu").2.1 cC5 wC5x (by rfl)

-- ### C6

/-- C6: for a name resolving to a location absent from the meeting cache,
    once the host connection is obtained, get_meeting probes the remote
    with check_update(0): a DiscussError with any code other than
    NO_SUCH_TRN propagates, any non-DiscussError failure propagates, and
    exactly the NO_SUCH_TRN failure (or a successful probe) is followed by
    load_info, whose failure propagates and whose success caches the
    meeting by location and returns it; afterwards any name resolving to
    the same location returns the cached object with no further state
    change. -/
theorem c6_get_meeting_probe (w : DiscussWrapper) (name : String)
    (loc : Location) (conn : Client) (w1 : DiscussWrapper)
    (hl : w.rcfile.lookup name = some loc)
    (hnc : lookupAssoc w.meetingcache loc = none)
    (hconn : _get_connection w loc.1 = (.ok conn, w1)) :
    (∀ c, w1.remote.checkUpdate loc 0 = .error (.discussError c) →
        c ≠ NO_SUCH_TRN →
        get_meeting w name = (.error (.discussError c), w1))
    ∧ (∀ e, w1.remote.checkUpdate loc 0 = .error e →
        (∀ c, e ≠ DsError.discussError c) →
        get_meeting w name = (.error e, w1))
    ∧ ((w1.remote.checkUpdate loc 0 = .error (.discussError NO_SUCH_TRN) ∨
        (∃ b, w1.remote.checkUpdate loc 0 = .ok b)) →
        (∀ e, w1.remote.loadInfo loc = .error e →
            get_meeting w name = (.error e, w1))
        ∧ (∀ info, w1.remote.loadInfo loc = .ok info →
            get_meeting w name =
              (.ok (mkMeeting w1.remote loc info),
               { w1 with meetingcache :=
                   (loc, mkMeeting w1.remote loc info) :: w1.meetingcache })
            ∧ (∀ name2, w.rcfile.lookup name2 = some loc →
                get_meeting
                    { w1 with meetingcache :=
                        (loc, mkMeeting w1.remote loc info) ::
                          w1.meetingcache } name2 =
                  (.ok (mkMeeting w1.remote loc info),
                   { w1 with meetingcache :=
                       (loc, mkMeeting w1.remote loc info) ::
                         w1.meetingcache })))) := by
  have hmain : get_meeting w name =
      (match w1.remote.checkUpdate loc 0 with
       | .error (.discussError c) =>
         if c = NO_SUCH_TRN then load_and_cache w1 loc
         else (.error (.discussError c), w1)
       | .error e => (.error e, w1)
       | .ok _ => load_and_cache w1 loc) := by
    simp only [get_meeting, hl, get_meetingAt, hnc, hconn]
  refine ⟨fun c hcu hne => ?_, fun e hcu hnd => ?_, fun hp => ?_⟩
  · simp only [hcu] at hmain
    rw [hmain, if_neg hne]
  · rcases e with c | _ | _ | _ | _ | _ | _ | _ | _ | m
    · exact absurd rfl (hnd c)
    all_goals (simp only [hcu] at hmain; exact hmain)
  · have hlc : get_meeting w name = load_and_cache w1 loc := by
      rcases hp with hp | ⟨b, hp⟩
      · simp only [hp] at hmain
        rw [hmain]
        simp
      · simp only [hp] at hmain
        exact hmain
    refine ⟨fun e he => ?_, fun info hi => ⟨?_, ?_⟩⟩
    · rw [hlc]
      simp only [load_and_cache, he]
    · rw [hlc]
      simp only [load_and_cache, hi]
    · intro name2 hn2
      have hrc : w1.rcfile = w.rcfile :=
        (_get_connection_frame w loc.1 (.ok conn) w1 hconn).1
      exact get_meeting_cached _ name2 loc _
        (by show w1.rcfile.lookup name2 = some loc; rw [hrc]; exact hn2)
        (by simp [lookupAssoc])

/-- C6 witness: attending the demo meeting by its short name probes slot 0
    (which fails benignly with NO_SUCH_TRN), loads the metadata, caches
    the meeting at its location, and a second call via the long name
    returns the very same cached object with no state change. -/
theorem c6_get_meeting_probe_witness :
    get_meeting wC6 "demo" =
      (.ok mtgV,
       { wC6c with meetingcache := (locW, mtgV) :: wC6c.meetingcache })
    ∧ get_meeting
        { wC6c with meetingcache := (locW, mtgV) :: wC6c.meetingcache }
        "demo-long" =
      (.ok mtgV,
       { wC6c with meetingcache := (locW, mtgV) :: wC6c.meetingcache }) := by
  have h := ((c6_get_meeting_probe wC6 "demo" locW
      { id := 0, host := "menelaus.mit.edu", timeout := some 3 } wC6c
      (by rfl) (by rfl) (by rfl)).2.2 (Or.inl (by rfl))).2 infoW (by rfl)
  exact ⟨h.1, h.2 "demo-long" (by rfl)⟩

-- ### C7

theorem lookupAssoc_map_update {α β : Type} [DecidableEq α] (u : β → β)
    (loc : α) :
    ∀ l : List (α × β),
    (lookupAssoc (l.map (fun p => if p.1 = loc then (p.1, u p.2) else p)) loc =
      (lookupAssoc l loc).map u)
    ∧ (∀ k, k ≠ loc →
        lookupAssoc (l.map (fun p => if p.1 = loc then (p.1, u p.2) else p)) k =
          lookupAssoc l k) := by
  intro l
  induction l with
  | nil => exact ⟨rfl, fun _ _ => rfl⟩
  | cons hd tl ih =>
    constructor
    · by_cases h : hd.1 = loc
      · simp [lookupAssoc, h]
      · simp [lookupAssoc, h, ih.1]
    · intro k hk
      have hk2 : loc ≠ k := fun hh => hk hh.symm
      by_cases h : hd.1 = loc
      · simp [lookupAssoc, h, hk2, ih.2 k hk]
      · by_cases h2 : hd.1 = k
        · simp [lookupAssoc, h, h2, hk, hk2]
        · simp [lookupAssoc, h, h2, ih.2 k hk]

theorem getEntry_setDeleted_self (rc : RCFile) (loc : Location) :
    (rc.setDeleted loc).getEntry loc =
      (rc.getEntry loc).map (fun e => { e with deleted := true }) := by
  show lookupAssoc (rc.entries.map (fun p =>
      if p.1 = loc then (p.1, { p.2 with deleted := true }) else p)) loc =
    (lookupAssoc rc.entries loc).map (fun e => { e with deleted := true })
  exact (lookupAssoc_map_update (fun e => { e with deleted := true }) loc
    rc.entries).1

theorem getEntry_setDeleted_ne (rc : RCFile) (loc loc2 : Location)
    (h : loc2 ≠ loc) :
    (rc.setDeleted loc).getEntry loc2 = rc.getEntry loc2 := by
  show lookupAssoc (rc.entries.map (fun p =>
      if p.1 = loc then (p.1, { p.2 with deleted := true }) else p)) loc2 =
    lookupAssoc rc.entries loc2
  exact (lookupAssoc_map_update (fun e => { e with deleted := true }) loc
    rc.entries).2 loc2 h

/-- C7 counterexample: in the two-meeting registry, attending the first
    meeting raises a non-timeout socket error (connection refused); the
    scan does not quarantine it and does not continue to the second
    meeting — it aborts with the uncaught error, leaving the second
    (quarantinable) entry unvisited and unmarked. -/
theorem c7_abort_counterexample :
    check_meetings wC7 = (wC7, [], false, some DsError.socketError) ∧
    RCFile.getEntry wC7.rcfile locB =
      some { names := ["mtg-b"], last_transaction := 0, deleted := false } :=
  ⟨by rfl, by rfl⟩

/-- C7 (amended): during the bulk scan, an entry already flagged deleted
    is skipped; a socket timeout or a NO_SUCH_MTG DiscussError on one
    meeting reports it, marks only that meeting's registry entry deleted
    (setDeleted leaves every other location's entry untouched), and the
    scan continues with the remaining meetings; other DiscussError codes
    and ProtocolError skip the meeting without marking; but a socket-level
    failure other than a timeout is not caught (see the counterexample). -/
theorem c7_quarantine_amended (w : DiscussWrapper) (loc : Location)
    (rest : List Location) (reports : List Report) (upd : Bool) (ent : Entry)
    (hent : RCFile.getEntry w.rcfile loc = some ent) :
    (ent.deleted = true →
        checkMeetingsAux w reports upd (loc :: rest) =
          checkMeetingsAux w reports upd rest)
    ∧ (ent.deleted = false →
        (∀ w1, get_meetingAt w loc = (.error .socketTimeout, w1) →
            checkMeetingsAux w reports upd (loc :: rest) =
              checkMeetingsAux (markDeleted w1 loc)
                (reports ++ [.unreachable loc]) true rest)
        ∧ (∀ w1,
            get_meetingAt w loc = (.error (.discussError NO_SUCH_MTG), w1) →
            checkMeetingsAux w reports upd (loc :: rest) =
              checkMeetingsAux (markDeleted w1 loc)
                (reports ++ [.noSuchMeeting loc]) true rest)
        ∧ (∀ w1 c, get_meetingAt w loc = (.error (.discussError c), w1) →
            c ≠ NO_SUCH_MTG →
            checkMeetingsAux w reports upd (loc :: rest) =
              checkMeetingsAux w1 reports upd rest)
        ∧ (∀ w1, get_meetingAt w loc = (.error .protocolError, w1) →
            checkMeetingsAux w reports upd (loc :: rest) =
              checkMeetingsAux w1 reports upd rest))
    ∧ (∀ loc2, loc2 ≠ loc →
        RCFile.getEntry (markDeleted w loc).rcfile loc2 =
          RCFile.getEntry w.rcfile loc2)
    ∧ (RCFile.getEntry (markDeleted w loc).rcfile loc =
        some { ent with deleted := true }) := by
  refine ⟨fun hd => ?_,
    fun hd => ⟨fun w1 hg => ?_, fun w1 hg => ?_, fun w1 c hg hne => ?_,
      fun w1 hg => ?_⟩,
    fun loc2 hne => getEntry_setDeleted_ne w.rcfile loc loc2 hne, ?_⟩
  · simp only [checkMeetingsAux, hent, hd, if_true]
  · simp only [checkMeetingsAux, hent, hd, Bool.false_eq_true, if_false, hg]
  · simp only [checkMeetingsAux, hent, hd, Bool.false_eq_true, if_false, hg]
    simp
  · simp only [checkMeetingsAux, hent, hd, Bool.false_eq_true, if_false, hg]
    rw [if_neg hne]
  · simp only [checkMeetingsAux, hent, hd, Bool.false_eq_true, if_false, hg]
  · rw [show (markDeleted w loc).rcfile = w.rcfile.setDeleted loc from rfl,
      getEntry_setDeleted_self, hent]
    rfl

/-- C7 witness: with both hosts timing out, the scan over the two
    registered meetings handles the first timeout by reporting it,
    quarantining exactly that entry, and continuing the scan with the
    second meeting. -/
theorem c7_quarantine_witness :
    checkMeetingsAux wC7b [] false [locA, locB] =
      checkMeetingsAux (markDeleted wC7b locA) [Report.unreachable locA]
        true [locB] :=
  ((c7_quarantine_amended wC7b locA [locB] [] false
      { names := ["mtg-a"], last_transaction := 0, deleted := false }
      (by rfl)).2.1 (by rfl)).1 wC7b (by rfl)
